import Mathlib

/-!
Shallow embedding of `src/updatePrice.py` (Shopify bulk price updater).

The remote service (Shopify) and the file system are modelled as oracle
parameters: `findO` answers a variant search by SKU (and may raise),
`save` answers the n-th save attempt for a given SKU (and may raise),
`connect` and `loadFile` model session setup and Excel loading.
Exceptions are modelled with `Except Unit`; observable side effects
(price assignments, save attempts, sleeps, lookups, the final log write)
are collected in an event trace.
-/

namespace UpdatePrice

/-- A Python scalar value as it appears in a spreadsheet cell. -/
inductive PyVal where
  | str (s : String)
  | num (n : Int)
deriving DecidableEq

/-- Python `str(x)` on the values we model. -/
def pyStr : PyVal → String
  | .str s => s
  | .num n => toString n

/-- One raw spreadsheet row: the SKU cell and the price cell, each
possibly missing (pandas `NaN`). -/
structure RawRow where
  sku : Option PyVal
  price : Option PyVal
deriving DecidableEq

/-- `df.dropna(subset=[SKU_COLUMN, PRICE_COLUMN])`: keep only rows where
both cells are present. -/
def dropIncomplete (rows : List RawRow) : List RawRow :=
  rows.filter (fun r => r.sku.isSome && r.price.isSome)

/-- `zip(df[SKU_COLUMN].astype(str), df[PRICE_COLUMN])` after the drop:
stringified SKU paired with the price value, in row order. -/
def rowPairs (rows : List RawRow) : List (String × PyVal) :=
  (dropIncomplete rows).filterMap (fun r =>
    match r.sku, r.price with
    | some s, some p => some (pyStr s, p)
    | _, _ => none)

/-- One step of Python `dict` construction: inserting a key that is
already present overwrites its value in place (the key keeps its
original position); a new key is appended at the end. -/
def dictInsert (d : List (String × PyVal)) (k : String) (v : PyVal) :
    List (String × PyVal) :=
  if d.any (fun p => p.1 == k) then
    d.map (fun p => if p.1 == k then (k, v) else p)
  else
    d ++ [(k, v)]

/-- Python `dict(zip(keys, values))` over a list of pairs. -/
def buildDict (l : List (String × PyVal)) : List (String × PyVal) :=
  l.foldl (fun d p => dictInsert d p.1 p.2) []

/-- `read_price_updates`: drop incomplete rows, stringify SKUs, build the
SKU-to-price dictionary. -/
def read_price_updates (rows : List RawRow) : List (String × PyVal) :=
  buildDict (rowPairs rows)

/-- Dictionary lookup (value stored for a key, if any). -/
def dictFind (d : List (String × PyVal)) (k : String) : Option PyVal :=
  (d.find? (fun p => p.1 == k)).map (fun p => p.2)

/-- The keys of a dictionary, in iteration order. -/
def dictKeys (d : List (String × PyVal)) : List String :=
  d.map Prod.fst

/-- The local copy of a Shopify variant: its SKU and its price field
(Shopify holds the price as a string). -/
structure Variant where
  sku : String
  price : String
deriving DecidableEq

/-- Observable side effects of a run. `saveAttempt` records the value of
the variant price field at the moment `variant.save()` is called. -/
inductive Event where
  | setPrice (sku price : String)
  | saveAttempt (sku price : String)
  | sleep (seconds : Int)
  | lookup (sku : String)
  | writeLog (entries : Nat)
deriving DecidableEq

/-- Is this event a save attempt? -/
def isSave : Event → Bool
  | .saveAttempt _ _ => true
  | _ => false

/-- Is this event a `time.sleep` call? -/
def isSleep : Event → Bool
  | .sleep _ => true
  | _ => false

/-- Number of save attempts recorded in a trace. -/
def saveCount (tr : List Event) : Nat := tr.countP isSave

/-- Number of sleeps recorded in a trace. -/
def sleepCount (tr : List Event) : Nat := tr.countP isSleep

/-- The retry loop of `update_variant_price`, one recursive step per
remaining loop iteration (`fuel` iterations left, current iteration has
attempt number `attempt`). Each iteration assigns
`variant.price = str(new_price)`, calls `variant.save()` (which may
raise), returns `True` on success, and on failure sleeps `delay` seconds
and continues. The mutated variant is threaded through. -/
def updateLoop (newPrice : PyVal) (save : Nat → Except Unit Bool) (delay : Int) :
    Nat → Nat → Variant → Except Unit (Bool × Variant) × List Event
  | _, 0, v => (Except.ok (false, v), [])
  | attempt, fuel + 1, v =>
    let v2 : Variant := ⟨v.sku, pyStr newPrice⟩
    let pre : List Event :=
      [Event.setPrice v.sku (pyStr newPrice), Event.saveAttempt v.sku v2.price]
    match save attempt with
    | Except.error e => (Except.error e, pre)
    | Except.ok true => (Except.ok (true, v2), pre)
    | Except.ok false =>
      let r := updateLoop newPrice save delay (attempt + 1) fuel v2
      (r.1, pre ++ Event.sleep delay :: r.2)

/-- `update_variant_price(variant, new_price, retries, delay)`:
`for attempt in range(1, retries + 1)`, so `max 0 retries` iterations
starting at attempt number 1; returns `False` when all attempts fail. -/
def update_variant_price (v : Variant) (newPrice : PyVal)
    (save : Nat → Except Unit Bool) (retries : Int) (delay : Int) :
    Except Unit (Bool × Variant) × List Event :=
  updateLoop newPrice save delay 1 retries.toNat v

/-- `find_variant_by_sku`: query the service, return the first match if
the result list is non-empty, otherwise `None`. A service error
propagates. -/
def find_variant_by_sku (findO : String → Except Unit (List Variant))
    (sku : String) : Except Unit (Option Variant) :=
  match findO sku with
  | Except.error e => Except.error e
  | Except.ok variants => Except.ok variants.head?

/-- One log entry: `{"SKU": sku, "Price": new_price, "Status": status}`. -/
structure OutcomeRecord where
  sku : String
  price : PyVal
  status : String
deriving DecidableEq

/-- The body of the row loop in `main` for one `(sku, new_price)` pair:
look the variant up, and either record "SKU not found", or run
`update_variant_price` with the default `retries=3, delay=2` and record
"Updated" or "Failed to update". An exception from the lookup or from a
save propagates out of the row. -/
def processRow (findO : String → Except Unit (List Variant))
    (save : String → Nat → Except Unit Bool) (sku : String) (price : PyVal) :
    Except Unit OutcomeRecord × List Event :=
  match find_variant_by_sku findO sku with
  | Except.error e => (Except.error e, [Event.lookup sku])
  | Except.ok none =>
    (Except.ok ⟨sku, price, "SKU not found"⟩, [Event.lookup sku])
  | Except.ok (some v) =>
    match update_variant_price v price (save sku) 3 2 with
    | (Except.error e, tr) => (Except.error e, Event.lookup sku :: tr)
    | (Except.ok (true, _), tr) =>
      (Except.ok ⟨sku, price, "Updated"⟩, Event.lookup sku :: tr)
    | (Except.ok (false, _), tr) =>
      (Except.ok ⟨sku, price, "Failed to update"⟩, Event.lookup sku :: tr)

/-- The row loop of `main`: process the dictionary items in order,
appending one outcome per item; an exception aborts the loop. -/
def processRows (findO : String → Except Unit (List Variant))
    (save : String → Nat → Except Unit Bool) :
    List (String × PyVal) → Except Unit (List OutcomeRecord) × List Event
  | [] => (Except.ok [], [])
  | (sku, price) :: rest =>
    match processRow findO save sku price with
    | (Except.error e, tr) => (Except.error e, tr)
    | (Except.ok o, tr) =>
      match processRows findO save rest with
      | (Except.error e, tr2) => (Except.error e, tr ++ tr2)
      | (Except.ok os, tr2) => (Except.ok (o :: os), tr ++ tr2)

/-- `main`: connect to Shopify, read the Excel file, process every
dictionary item, then write the CSV log. A failure of session setup or
of loading aborts before the row loop; a per-row exception aborts before
the log write. -/
def main (connect : Except Unit Unit) (loadFile : Except Unit (List RawRow))
    (findO : String → Except Unit (List Variant))
    (save : String → Nat → Except Unit Bool) :
    Except Unit (List OutcomeRecord) × List Event :=
  match connect with
  | Except.error _ => (Except.error (), [])
  | Except.ok _ =>
    match loadFile with
    | Except.error _ => (Except.error (), [])
    | Except.ok rows =>
      match processRows findO save (read_price_updates rows) with
      | (Except.error e, tr) => (Except.error e, tr)
      | (Except.ok os, tr) => (Except.ok os, tr ++ [Event.writeLog os.length])

/-! ### Lemmas about the retry loop -/

theorem updateLoop_allFail (newPrice : PyVal) (save : Nat → Except Unit Bool) (delay : Int)
    (fuel : Nat) :
    ∀ (attempt : Nat) (v : Variant),
      (∀ j, j < fuel → save (attempt + j) = Except.ok false) →
      ∃ w tr, updateLoop newPrice save delay attempt fuel v = (Except.ok (false, w), tr) ∧
        saveCount tr = fuel ∧ sleepCount tr = fuel := by
  induction fuel with
  | zero => exact fun attempt v _ => ⟨v, [], rfl, rfl, rfl⟩
  | succ n ih =>
    intro attempt v h
    have h0 : save attempt = Except.ok false := by simpa using h 0 n.succ_pos
    obtain ⟨w, tr, heq, hsc, hslc⟩ := ih (attempt + 1) ⟨v.sku, pyStr newPrice⟩
      (fun j hj => by
        have e : attempt + 1 + j = attempt + (j + 1) := by omega
        rw [e]; exact h (j + 1) (by omega))
    refine ⟨w, Event.setPrice v.sku (pyStr newPrice) ::
      Event.saveAttempt v.sku (pyStr newPrice) :: Event.sleep delay :: tr, ?_, ?_, ?_⟩
    · simp [updateLoop, h0, heq]
    · simp [saveCount, List.countP_cons, isSave] at hsc ⊢
      omega
    · simp [sleepCount, List.countP_cons, isSleep] at hslc ⊢
      omega

theorem updateLoop_firstSuccess (newPrice : PyVal) (save : Nat → Except Unit Bool)
    (delay : Int) (i : Nat) :
    ∀ (fuel attempt : Nat) (v : Variant), i < fuel →
      (∀ j, j < i → save (attempt + j) = Except.ok false) →
      save (attempt + i) = Except.ok true →
      ∃ tr, updateLoop newPrice save delay attempt fuel v =
          (Except.ok (true, ⟨v.sku, pyStr newPrice⟩), tr) ∧
        saveCount tr = i + 1 ∧ sleepCount tr = i := by
  induction i with
  | zero =>
    intro fuel attempt v hfuel _ hsucc
    obtain ⟨n, rfl⟩ : ∃ n, fuel = n + 1 := ⟨fuel - 1, by omega⟩
    have h0 : save attempt = Except.ok true := by simpa using hsucc
    exact ⟨[Event.setPrice v.sku (pyStr newPrice),
      Event.saveAttempt v.sku (pyStr newPrice)], by simp [updateLoop, h0], rfl, rfl⟩
  | succ m ih =>
    intro fuel attempt v hfuel hfail hsucc
    obtain ⟨n, rfl⟩ : ∃ n, fuel = n + 1 := ⟨fuel - 1, by omega⟩
    have h0 : save attempt = Except.ok false := by simpa using hfail 0 m.succ_pos
    obtain ⟨tr, heq, hsc, hslc⟩ := ih n (attempt + 1) ⟨v.sku, pyStr newPrice⟩ (by omega)
      (fun j hj => by
        have e : attempt + 1 + j = attempt + (j + 1) := by omega
        rw [e]; exact hfail (j + 1) (by omega))
      (by
        have e : attempt + 1 + m = attempt + (m + 1) := by omega
        rw [e]; exact hsucc)
    refine ⟨Event.setPrice v.sku (pyStr newPrice) ::
      Event.saveAttempt v.sku (pyStr newPrice) :: Event.sleep delay :: tr, ?_, ?_, ?_⟩
    · simp [updateLoop, h0, heq]
    · simp [saveCount, List.countP_cons, isSave] at hsc ⊢
      omega
    · simp [sleepCount, List.countP_cons, isSleep] at hslc ⊢
      omega

theorem updateLoop_savePrice (newPrice : PyVal) (save : Nat → Except Unit Bool)
    (delay : Int) (fuel : Nat) :
    ∀ (attempt : Nat) (v : Variant) (s pr : String),
      Event.saveAttempt s pr ∈ (updateLoop newPrice save delay attempt fuel v).2 →
      pr = pyStr newPrice := by
  induction fuel with
  | zero => intro attempt v s pr h; simp [updateLoop] at h
  | succ n ih =>
    intro attempt v s pr h
    rcases hs : save attempt with e | b
    · simp [updateLoop, hs] at h
      exact h.2
    · cases b
      · simp [updateLoop, hs] at h
        rcases h with h | h
        · exact h.2
        · exact ih (attempt + 1) ⟨v.sku, pyStr newPrice⟩ s pr h
      · simp [updateLoop, hs] at h
        exact h.2

/-! ### Claims about the Price Updater -/

/-- C1: with the default cap `retries = 3`, `delay = 2` and a write path
that fails on every attempt, `update_variant_price` returns `false` after
exactly 3 save attempts — but 3 delays elapse, one after every failed
attempt including the last, not the 2 delays (`maxAttempts - 1`) the
claim states. -/
theorem update_allFail_three_attempts_three_sleeps :
    (update_variant_price ⟨"S1", "5"⟩ (PyVal.str "7")
        (fun _ => Except.ok false) 3 2).1 = Except.ok (false, ⟨"S1", "7"⟩) ∧
      saveCount (update_variant_price ⟨"S1", "5"⟩ (PyVal.str "7")
        (fun _ => Except.ok false) 3 2).2 = 3 ∧
      sleepCount (update_variant_price ⟨"S1", "5"⟩ (PyVal.str "7")
        (fun _ => Except.ok false) 3 2).2 = 3 :=
  ⟨rfl, rfl, rfl⟩

/-- C6: if the save fails on attempts `1..k-1` and succeeds on attempt
`k` with `1 ≤ k ≤ retries`, then `update_variant_price` returns `true`
after exactly `k` save attempts and `k - 1` sleeps (none after the
success). -/
theorem update_succeeds_at_k (v : Variant) (p : PyVal) (save : Nat → Except Unit Bool)
    (retries delay : Int) (k : Nat) (hk1 : 1 ≤ k) (hk2 : (k : Int) ≤ retries)
    (hfail : ∀ j, 1 ≤ j → j < k → save j = Except.ok false)
    (hsucc : save k = Except.ok true) :
    ∃ tr, update_variant_price v p save retries delay =
        (Except.ok (true, ⟨v.sku, pyStr p⟩), tr) ∧
      saveCount tr = k ∧ sleepCount tr = k - 1 := by
  have hlt : k - 1 < retries.toNat := by omega
  obtain ⟨tr, heq, hsc, hslc⟩ := updateLoop_firstSuccess p save delay (k - 1)
    retries.toNat 1 v hlt
    (fun j hj => hfail (1 + j) (by omega) (by omega))
    (by
      have e : 1 + (k - 1) = k := by omega
      rw [e]; exact hsucc)
  exact ⟨tr, heq, by omega, hslc⟩

/-- C6 witness: with `retries = 3` and a write that fails on attempt 1
and succeeds on attempt 2, the result is `true` after 2 attempts and 1
sleep. -/
theorem update_succeeds_at_k_witness :
    ∃ tr, update_variant_price ⟨"S", "1"⟩ (PyVal.str "2")
        (fun j => Except.ok (j == 2)) 3 2 =
        (Except.ok (true, ⟨"S", "2"⟩), tr) ∧
      saveCount tr = 2 ∧ sleepCount tr = 1 :=
  update_succeeds_at_k ⟨"S", "1"⟩ (PyVal.str "2") (fun j => Except.ok (j == 2)) 3 2 2
    (by decide) (by decide)
    (fun j h1 h2 => by
      have hj : j = 1 := by omega
      subst hj; rfl)
    rfl

/-- C8: even when the variant price field already equals `str(newPrice)`,
the updater still assigns the price field and still calls `save`; on a
first successful save it returns `true` after exactly that one attempt —
there is no special-case short-circuit comparing old and new price. -/
theorem update_no_short_circuit (v : Variant) (p : PyVal) (save : Nat → Except Unit Bool)
    (retries delay : Int) (_halready : v.price = pyStr p) (hr : 0 < retries)
    (hs : save 1 = Except.ok true) :
    update_variant_price v p save retries delay =
      (Except.ok (true, ⟨v.sku, pyStr p⟩),
       [Event.setPrice v.sku (pyStr p), Event.saveAttempt v.sku (pyStr p)]) := by
  obtain ⟨n, hn⟩ : ∃ n, retries.toNat = n + 1 := ⟨retries.toNat - 1, by omega⟩
  unfold update_variant_price
  rw [hn]
  simp [updateLoop, hs]

/-- C8 witness: a variant whose price is already "2", updated to "2":
the price is still assigned, one save attempt happens, result is true. -/
theorem update_no_short_circuit_witness :
    update_variant_price ⟨"S", "2"⟩ (PyVal.str "2") (fun _ => Except.ok true) 3 2 =
      (Except.ok (true, ⟨"S", "2"⟩),
       [Event.setPrice "S" "2", Event.saveAttempt "S" "2"]) :=
  update_no_short_circuit ⟨"S", "2"⟩ (PyVal.str "2") (fun _ => Except.ok true) 3 2 rfl
    (by decide) rfl

/-- C9: calling `update_variant_price` with `retries ≤ 0` returns `false`
with an empty trace — no save attempt, no price assignment, no sleep —
and the variant is returned unchanged. -/
theorem update_nonpositive_retries (v : Variant) (p : PyVal)
    (save : Nat → Except Unit Bool) (retries delay : Int) (h : retries ≤ 0) :
    update_variant_price v p save retries delay = (Except.ok (false, v), []) := by
  have h0 : retries.toNat = 0 := by omega
  unfold update_variant_price
  rw [h0]
  rfl

/-- C9 witness: `retries = -1` performs nothing and returns false. -/
theorem update_nonpositive_retries_witness :
    update_variant_price ⟨"S", "1"⟩ (PyVal.str "2") (fun _ => Except.ok true) (-1) 2
      = (Except.ok (false, ⟨"S", "1"⟩), []) :=
  update_nonpositive_retries ⟨"S", "1"⟩ (PyVal.str "2") (fun _ => Except.ok true) (-1) 2
    (by decide)

/-- C10: within a single `update_variant_price` call, every save attempt
in the trace transmits the price field value `str(newPrice)`: the price
is re-assigned immediately before every attempt, whatever earlier failed
attempts did. -/
theorem update_save_price_constant (v : Variant) (p : PyVal)
    (save : Nat → Except Unit Bool) (retries delay : Int) (s pr : String)
    (h : Event.saveAttempt s pr ∈ (update_variant_price v p save retries delay).2) :
    pr = pyStr p :=
  updateLoop_savePrice p save delay retries.toNat 1 v s pr h

/-- C10 witness: at a concrete one-attempt run, the recorded transmitted
price equals `str(newPrice)`. -/
theorem update_save_price_constant_witness : ("2" : String) = pyStr (PyVal.str "2") :=
  update_save_price_constant ⟨"S", "0"⟩ (PyVal.str "2") (fun _ => Except.ok true) 1 2
    "S" "2" (by decide)

/-! ### Lemmas about the row loop -/

theorem processRow_ok_fields (findO : String → Except Unit (List Variant))
    (save : String → Nat → Except Unit Bool) (sku : String) (price : PyVal)
    (o : OutcomeRecord) (tr : List Event)
    (h : processRow findO save sku price = (Except.ok o, tr)) :
    o.sku = sku ∧ o.price = price ∧
      (o.status = "Updated" ∨ o.status = "Failed to update" ∨
        o.status = "SKU not found") := by
  unfold processRow at h
  split at h
  · simp at h
  · simp only [Prod.mk.injEq, Except.ok.injEq] at h
    rw [← h.1]
    exact ⟨rfl, rfl, Or.inr (Or.inr rfl)⟩
  · split at h
    · simp at h
    · simp only [Prod.mk.injEq, Except.ok.injEq] at h
      rw [← h.1]
      exact ⟨rfl, rfl, Or.inl rfl⟩
    · simp only [Prod.mk.injEq, Except.ok.injEq] at h
      rw [← h.1]
      exact ⟨rfl, rfl, Or.inr (Or.inl rfl)⟩

theorem processRows_ok_map (findO : String → Except Unit (List Variant))
    (save : String → Nat → Except Unit Bool) :
    ∀ (rows : List (String × PyVal)) (log : List OutcomeRecord),
      (processRows findO save rows).1 = Except.ok log →
      log.map (fun o => (o.sku, o.price)) = rows := by
  intro rows
  induction rows with
  | nil =>
    intro log h
    simp only [processRows, Except.ok.injEq] at h
    rw [← h]
    rfl
  | cons hd tl ih =>
    obtain ⟨sku, price⟩ := hd
    intro log h
    unfold processRows at h
    rcases hp : processRow findO save sku price with ⟨pr1, tr⟩
    rw [hp] at h
    rcases pr1 with e | o
    · simp at h
    · rcases hq : processRows findO save tl with ⟨q1, tr2⟩
      rw [hq] at h
      rcases q1 with e | os
      · simp at h
      · simp only [Except.ok.injEq] at h
        obtain ⟨hsku, hprice, -⟩ := processRow_ok_fields findO save sku price o tr hp
        have htl : (processRows findO save tl).1 = Except.ok os := by rw [hq]
        rw [← h]
        simp [hsku, hprice, ih os htl]

/-! ### Claims about the Run Orchestrator -/

/-- C2 counterexample: a run over one loaded row whose remote lookup
raises aborts with an error: the error is not captured as an outcome
status, no log is produced, and processing does not continue. -/
theorem lookup_error_aborts_concrete_run :
    (main (Except.ok ()) (Except.ok [⟨some (PyVal.str "A"), some (PyVal.str "1")⟩])
        (fun _ => Except.error ()) (fun _ _ => Except.ok true)).1 = Except.error () :=
  rfl

/-- C2 (amended): a per-row error is not captured as an outcome: an
exception raised by the remote lookup, or by the first save attempt of
the write path, propagates and aborts the row loop with no outcome
list (only reported outcomes — zero matches, falsy saves — become
statuses). -/
theorem row_error_aborts_run (findO : String → Except Unit (List Variant))
    (save : String → Nat → Except Unit Bool) (sku : String) (price : PyVal)
    (rest : List (String × PyVal)) :
    (findO sku = Except.error () →
      (processRows findO save ((sku, price) :: rest)).1 = Except.error ()) ∧
    (∀ v vs, findO sku = Except.ok (v :: vs) → save sku 1 = Except.error () →
      (processRows findO save ((sku, price) :: rest)).1 = Except.error ()) := by
  constructor
  · intro hf
    unfold processRows processRow find_variant_by_sku
    rw [hf]
  · intro v vs hf hs
    have hupd : update_variant_price v price (save sku) 3 2 =
        (Except.error (),
         [Event.setPrice v.sku (pyStr price), Event.saveAttempt v.sku (pyStr price)]) := by
      unfold update_variant_price
      simp [updateLoop, hs]
    unfold processRows processRow find_variant_by_sku
    rw [hf]
    simp [hupd]

/-- C2 witness for the amended claim: both error paths abort a concrete
one-row loop. -/
theorem row_error_aborts_run_witness :
    (processRows (fun _ => Except.error ()) (fun _ _ => Except.ok true)
        [("A", PyVal.str "1")]).1 = Except.error () ∧
      (processRows (fun _ => Except.ok [⟨"A", "0"⟩]) (fun _ _ => Except.error ())
        [("A", PyVal.str "1")]).1 = Except.error () :=
  ⟨(row_error_aborts_run (fun _ => Except.error ()) (fun _ _ => Except.ok true)
      "A" (PyVal.str "1") []).1 rfl,
   (row_error_aborts_run (fun _ => Except.ok [⟨"A", "0"⟩]) (fun _ _ => Except.error ())
      "A" (PyVal.str "1") []).2 ⟨"A", "0"⟩ [] rfl rfl⟩

/-- C3 counterexample: two complete rows with the same SKU survive the
drop-incomplete filter (2 rows) but collapse to one dictionary entry, so
the completed run's log has length 1, not the filtered row count 2. -/
theorem run_log_shorter_than_filtered_rows :
    (dropIncomplete
        [⟨some (PyVal.str "A"), some (PyVal.str "1")⟩,
         ⟨some (PyVal.str "A"), some (PyVal.str "2")⟩]).length = 2 ∧
      (main (Except.ok ())
        (Except.ok [⟨some (PyVal.str "A"), some (PyVal.str "1")⟩,
                    ⟨some (PyVal.str "A"), some (PyVal.str "2")⟩])
        (fun _ => Except.ok []) (fun _ _ => Except.ok true)).1
        = Except.ok [⟨"A", PyVal.str "2", "SKU not found"⟩] :=
  ⟨rfl, rfl⟩

/-- C3 (amended): whenever the run completes, the log has exactly one
outcome per entry of the loaded mapping, in the mapping's iteration
order and with matching SKU and price; its length is the number of
mapping entries (distinct identifiers after the drop-incomplete filter,
duplicates collapsed to their last occurrence), not the filtered row
count. -/
theorem run_log_matches_mapping (raw : List RawRow)
    (findO : String → Except Unit (List Variant))
    (save : String → Nat → Except Unit Bool) (log : List OutcomeRecord)
    (h : (main (Except.ok ()) (Except.ok raw) findO save).1 = Except.ok log) :
    log.map (fun o => (o.sku, o.price)) = read_price_updates raw ∧
      log.length = (read_price_updates raw).length := by
  have h2 : (processRows findO save (read_price_updates raw)).1 = Except.ok log := by
    have hm : main (Except.ok ()) (Except.ok raw) findO save =
        (match processRows findO save (read_price_updates raw) with
         | (Except.error e, tr) => (Except.error e, tr)
         | (Except.ok os, tr) => (Except.ok os, tr ++ [Event.writeLog os.length])) := rfl
    rw [hm] at h
    rcases hq : processRows findO save (read_price_updates raw) with ⟨q1, tr⟩
    rw [hq] at h
    rcases q1 with e | os
    · simp at h
    · simp only [Except.ok.injEq] at h
      simp [h]
  have hmap := processRows_ok_map findO save _ log h2
  exact ⟨hmap, by rw [← hmap, List.length_map]⟩

/-- C3 witness: a completed one-row run whose log matches the mapping. -/
theorem run_log_matches_mapping_witness :
    ([⟨"A", PyVal.str "1", "SKU not found"⟩] : List OutcomeRecord).map
        (fun o => (o.sku, o.price))
        = read_price_updates [⟨some (PyVal.str "A"), some (PyVal.str "1")⟩] ∧
      ([⟨"A", PyVal.str "1", "SKU not found"⟩] : List OutcomeRecord).length
        = (read_price_updates [⟨some (PyVal.str "A"), some (PyVal.str "1")⟩]).length :=
  run_log_matches_mapping [⟨some (PyVal.str "A"), some (PyVal.str "1")⟩]
    (fun _ => Except.ok []) (fun _ _ => Except.ok true)
    [⟨"A", PyVal.str "1", "SKU not found"⟩] rfl

/-- C4: per-row branching: zero remote matches give status
"SKU not found"; a match whose save succeeds at some attempt within the
cap of 3 gives "Updated"; a match whose saves all fail gives
"Failed to update"; and every recorded status is one of these three
strings. -/
theorem processRow_status_cases (findO : String → Except Unit (List Variant))
    (save : String → Nat → Except Unit Bool) (sku : String) (price : PyVal) :
    (findO sku = Except.ok [] →
      processRow findO save sku price =
        (Except.ok ⟨sku, price, "SKU not found"⟩, [Event.lookup sku])) ∧
    (∀ v vs, findO sku = Except.ok (v :: vs) →
      ∀ k, k < 3 → (∀ j, j < k → save sku (1 + j) = Except.ok false) →
      save sku (1 + k) = Except.ok true →
      (processRow findO save sku price).1 = Except.ok ⟨sku, price, "Updated"⟩) ∧
    (∀ v vs, findO sku = Except.ok (v :: vs) →
      (∀ j, j < 3 → save sku (1 + j) = Except.ok false) →
      (processRow findO save sku price).1 =
        Except.ok ⟨sku, price, "Failed to update"⟩) ∧
    (∀ o tr, processRow findO save sku price = (Except.ok o, tr) →
      o.status = "Updated" ∨ o.status = "Failed to update" ∨
        o.status = "SKU not found") := by
  refine ⟨?_, ?_, ?_, ?_⟩
  · intro hf
    unfold processRow find_variant_by_sku
    rw [hf]
    rfl
  · intro v vs hf k hk hfail hsucc
    obtain ⟨tr, heq, -, -⟩ :=
      updateLoop_firstSuccess price (save sku) 2 k 3 1 v hk hfail hsucc
    have heq2 : update_variant_price v price (save sku) 3 2 =
        (Except.ok (true, ⟨v.sku, pyStr price⟩), tr) := heq
    unfold processRow find_variant_by_sku
    rw [hf]
    simp [heq2]
  · intro v vs hf hfail
    obtain ⟨w, tr, heq, -, -⟩ :=
      updateLoop_allFail price (save sku) 2 3 1 v (fun j hj => hfail j hj)
    have heq2 : update_variant_price v price (save sku) 3 2 =
        (Except.ok (false, w), tr) := heq
    unfold processRow find_variant_by_sku
    rw [hf]
    simp [heq2]
  · intro o tr h
    exact (processRow_ok_fields findO save sku price o tr h).2.2

/-- C4 witness: the three branches and the status range at concrete
oracles. -/
theorem processRow_status_cases_witness :
    processRow (fun _ => Except.ok []) (fun _ _ => Except.ok true) "A" (PyVal.str "1")
        = (Except.ok ⟨"A", PyVal.str "1", "SKU not found"⟩, [Event.lookup "A"]) ∧
      (processRow (fun _ => Except.ok [⟨"A", "0"⟩]) (fun _ _ => Except.ok true) "A"
        (PyVal.str "1")).1 = Except.ok ⟨"A", PyVal.str "1", "Updated"⟩ ∧
      (processRow (fun _ => Except.ok [⟨"A", "0"⟩]) (fun _ _ => Except.ok false) "A"
        (PyVal.str "1")).1 = Except.ok ⟨"A", PyVal.str "1", "Failed to update"⟩ ∧
      ((⟨"A", PyVal.str "1", "SKU not found"⟩ : OutcomeRecord).status = "Updated" ∨
        (⟨"A", PyVal.str "1", "SKU not found"⟩ : OutcomeRecord).status
          = "Failed to update" ∨
        (⟨"A", PyVal.str "1", "SKU not found"⟩ : OutcomeRecord).status
          = "SKU not found") :=
  ⟨(processRow_status_cases (fun _ => Except.ok []) (fun _ _ => Except.ok true) "A"
      (PyVal.str "1")).1 rfl,
   (processRow_status_cases (fun _ => Except.ok [⟨"A", "0"⟩]) (fun _ _ => Except.ok true)
      "A" (PyVal.str "1")).2.1 ⟨"A", "0"⟩ [] rfl 0 (by omega)
      (fun j hj => absurd hj (Nat.not_lt_zero j)) rfl,
   (processRow_status_cases (fun _ => Except.ok [⟨"A", "0"⟩]) (fun _ _ => Except.ok false)
      "A" (PyVal.str "1")).2.2.1 ⟨"A", "0"⟩ [] rfl (fun j hj => rfl),
   (processRow_status_cases (fun _ => Except.ok []) (fun _ _ => Except.ok true) "A"
      (PyVal.str "1")).2.2.2 ⟨"A", PyVal.str "1", "SKU not found"⟩ [Event.lookup "A"]
      rfl⟩

/-- C7: if session setup or file loading fails, `main` aborts before any
row: the result is an error and the trace is empty — no lookup, no save
attempt, no outcome, no log write. -/
theorem fatal_error_aborts_before_rows (connect : Except Unit Unit)
    (loadFile : Except Unit (List RawRow))
    (findO : String → Except Unit (List Variant))
    (save : String → Nat → Except Unit Bool)
    (h : connect = Except.error () ∨ loadFile = Except.error ()) :
    main connect loadFile findO save = (Except.error (), []) := by
  rcases h with h | h
  · subst h; rfl
  · rcases connect with e | u
    · rfl
    · subst h; rfl

/-- C7 witness: a failed session setup aborts a run with no events. -/
theorem fatal_error_aborts_before_rows_witness :
    main (Except.error ()) (Except.ok []) (fun _ => Except.ok [])
      (fun _ _ => Except.ok true) = (Except.error (), []) :=
  fatal_error_aborts_before_rows (Except.error ()) (Except.ok [])
    (fun _ => Except.ok []) (fun _ _ => Except.ok true) (Or.inl rfl)

/-! ### Lemmas about the loader dictionary -/

/-- First-some choice on options (Python dict update resolution order). -/
def optOr (a b : Option PyVal) : Option PyVal :=
  match a with
  | some x => some x
  | none => b

theorem find?_append {α : Type} (p : α → Bool) (l1 l2 : List α) :
    (l1 ++ l2).find? p =
      match l1.find? p with
      | some a => some a
      | none => l2.find? p := by
  induction l1 with
  | nil => rfl
  | cons a t ih =>
    by_cases h : p a
    · simp [List.find?_cons, h]
    · simp [List.find?_cons, h, ih]

theorem find?_map_overwrite (d : List (String × PyVal)) (k q : String) (v : PyVal) :
    (d.map (fun p => if p.1 == k then (k, v) else p)).find? (fun p => p.1 == q)
      = if q = k then (d.find? (fun p => p.1 == k)).map (fun _ => (k, v))
        else d.find? (fun p => p.1 == q) := by
  induction d with
  | nil => by_cases h : q = k <;> simp [h]
  | cons a t ih =>
    by_cases h1 : a.1 = k <;> by_cases h2 : q = k <;>
      by_cases h3 : a.1 = q <;>
      simp_all [List.find?_cons]

theorem dictInsert_find (d : List (String × PyVal)) (k : String) (v : PyVal)
    (q : String) :
    dictFind (dictInsert d k v) q = if q = k then some v else dictFind d q := by
  unfold dictInsert dictFind
  by_cases hmem : d.any (fun p => p.1 == k)
  · rw [if_pos hmem, find?_map_overwrite]
    by_cases h : q = k
    · rw [if_pos h, if_pos h]
      obtain ⟨x, hx, hpx⟩ := List.any_eq_true.mp hmem
      rcases hfind : d.find? (fun p => p.1 == k) with _ | a
      · rw [List.find?_eq_none] at hfind
        exact absurd hpx (hfind x hx)
      · rw [hfind]
        rfl
    · rw [if_neg h, if_neg h]
  · rw [if_neg hmem, find?_append]
    have hnone : d.find? (fun p => p.1 == k) = none := by
      rcases hfind : d.find? (fun p => p.1 == k) with _ | a
      · exact hfind
      · exact absurd (List.any_eq_true.mpr
          ⟨a, List.mem_of_find?_eq_some hfind, List.find?_some hfind⟩) hmem
    by_cases h : q = k
    · subst h
      rw [hnone]
      simp
    · have hkq : (k == q) = false := by
        rw [beq_eq_false_iff_ne]
        exact fun hc => h hc.symm
      rcases hfind : d.find? (fun p => p.1 == q) with _ | a
      · rw [hfind]
        simp [List.find?_cons, hkq, h]
      · rw [hfind]
        simp [h]

theorem dictInsert_keys_nodup (d : List (String × PyVal)) (k : String) (v : PyVal)
    (h : (dictKeys d).Nodup) : (dictKeys (dictInsert d k v)).Nodup := by
  unfold dictInsert
  by_cases hmem : d.any (fun p => p.1 == k)
  · rw [if_pos hmem]
    have hkeys : dictKeys (d.map (fun p => if p.1 == k then (k, v) else p))
        = dictKeys d := by
      unfold dictKeys
      rw [List.map_map]
      apply List.map_congr_left
      intro p hp
      by_cases h1 : p.1 = k <;> simp [h1]
    rw [hkeys]
    exact h
  · rw [if_neg hmem]
    have hk : k ∉ dictKeys d := by
      intro hc
      obtain ⟨p, hp, he⟩ := List.mem_map.mp hc
      refine hmem (List.any_eq_true.mpr ⟨p, hp, ?_⟩)
      simp only [he]
      exact beq_self_eq_true k
    unfold dictKeys at h hk ⊢
    rw [List.map_append]
    simp only [List.map_cons, List.map_nil]
    rw [List.nodup_append]
    exact ⟨h, List.nodup_singleton k, by
      intro x hx hxk
      simp only [List.mem_singleton] at hxk
      exact hk (hxk ▸ hx)⟩

theorem foldl_insert_find (q : String) :
    ∀ (l d : List (String × PyVal)),
      dictFind (l.foldl (fun d p => dictInsert d p.1 p.2) d) q
        = optOr ((l.reverse.find? (fun p => p.1 == q)).map (fun p => p.2))
            (dictFind d q) := by
  intro l
  induction l with
  | nil => intro d; rfl
  | cons a t ih =>
    intro d
    rcases hf : t.reverse.find? (fun p => p.1 == q) with _ | p
    · simp only [List.foldl_cons]
      rw [ih, List.reverse_cons, find?_append, hf, dictInsert_find]
      by_cases h : q = a.1
      · have ha : (a.1 == q) = true := by simp [h]
        simp [optOr, List.find?_cons, ha, if_pos h]
      · have ha : (a.1 == q) = false := by
          rw [beq_eq_false_iff_ne]
          exact fun hc => h hc.symm
        simp [optOr, List.find?_cons, ha, if_neg h]
    · simp only [List.foldl_cons]
      rw [ih, List.reverse_cons, find?_append, hf]
      simp [optOr]

theorem buildDict_keys_nodup :
    ∀ (l d : List (String × PyVal)), (dictKeys d).Nodup →
      (dictKeys (l.foldl (fun d p => dictInsert d p.1 p.2) d)).Nodup := by
  intro l
  induction l with
  | nil => intro d h; exact h
  | cons a t ih =>
    intro d h
    rw [List.foldl_cons]
    exact ih _ (dictInsert_keys_nodup d a.1 a.2 h)

/-! ### Claim about the Spreadsheet Loader -/

/-- C5 counterexample: on the spec's example table
`[{id:"A", price:10}, {id:"", price:20}, {id:"B", price:null}]` the row
with the empty-string identifier is NOT excluded — `dropna` only drops
missing (NA) cells — so the loaded mapping is
`{"A": 10, "": 20}`, not `{"A": 10}` as the claim states (the
null-price row is indeed dropped). -/
theorem empty_string_sku_not_excluded :
    read_price_updates
        [⟨some (PyVal.str "A"), some (PyVal.num 10)⟩,
         ⟨some (PyVal.str ""), some (PyVal.num 20)⟩,
         ⟨some (PyVal.str "B"), none⟩]
      = [("A", PyVal.num 10), ("", PyVal.num 20)] :=
  rfl

/-- C5 (amended): the loader excludes exactly the rows with a missing
(NA) value in the identifier or the price column — an empty-string
identifier is a present value and its row is kept — and the returned
mapping is duplicate-free, mapping each surviving stringified identifier
to the price of its last surviving occurrence. -/
theorem read_price_updates_spec (rows : List RawRow) :
    (dictKeys (read_price_updates rows)).Nodup ∧
      (∀ q, dictFind (read_price_updates rows) q
        = ((rowPairs rows).reverse.find? (fun p => p.1 == q)).map (fun p => p.2)) ∧
      (∀ q, (dictFind (read_price_updates rows) q).isSome ↔
        ∃ r ∈ rows, ∃ s p, r.sku = some s ∧ r.price = some p ∧ pyStr s = q) := by
  have hfind : ∀ q, dictFind (read_price_updates rows) q
      = ((rowPairs rows).reverse.find? (fun p => p.1 == q)).map (fun p => p.2) := by
    intro q
    have h := foldl_insert_find q (rowPairs rows) []
    rcases hf : (rowPairs rows).reverse.find? (fun p => p.1 == q) with _ | p <;>
      simpa [optOr, hf, dictFind] using h
  refine ⟨buildDict_keys_nodup (rowPairs rows) [] (by simp [dictKeys]), hfind, ?_⟩
  intro q
  rw [hfind q]
  have hiso : ∀ (o : Option (String × PyVal)),
      (o.map (fun p => p.2)).isSome = o.isSome := by
    intro o
    cases o <;> rfl
  rw [hiso, List.find?_isSome]
  constructor
  · rintro ⟨p, hp, hpq⟩
    rw [List.mem_reverse] at hp
    obtain ⟨r, hr, hmatch⟩ := List.mem_filterMap.mp hp
    rcases hsku : r.sku with _ | s <;> rcases hprice : r.price with _ | pv <;>
      rw [hsku, hprice] at hmatch <;> simp at hmatch
    subst hmatch
    rw [dropIncomplete] at hr
    exact ⟨r, (List.mem_filter.mp hr).1, s, pv, hsku, hprice, beq_iff_eq.mp hpq⟩
  · rintro ⟨r, hr, s, pv, hsku, hprice, hq⟩
    refine ⟨(q, pv), ?_, by simp⟩
    rw [List.mem_reverse]
    apply List.mem_filterMap.mpr
    refine ⟨r, ?_, ?_⟩
    · rw [dropIncomplete]
      exact List.mem_filter.mpr ⟨hr, by simp [hsku, hprice]⟩
    · rw [hsku, hprice]
      simp [hq]

end UpdatePrice
